import Mathlib

/-!
Verification of the cursor-driven page layout engine of `easy-jspdf`
(`src/src/index.js`).  The engine keeps a mutable state
(page index, write cursor, last line height, page geometry) and every public
operation is a transition over that state plus a list of render calls
delegated to the underlying PDF library.  We embed the state as an explicit
structure, the delegated drawing calls as an event list, and each method as a
pure state-transition function.  Text measurement (`getTextWidth`) and
width-aware splitting (`splitTextToSize`) are library collaborators and are
passed in as function parameters.  Dimensions are rational numbers
(millimetres); the JS arithmetic involved is exact decimal arithmetic, so ℚ
models it faithfully (0.55 = 11/20, 0.4 = 2/5, 0.5 = 1/2).
-/

namespace EasyPdf

/-- A drawing call delegated to the underlying PDF library. -/
inductive RenderEvent where
  | addPage
  | textAt (s : String) (x y : ℚ)
  | lineAt (x1 y1 x2 y2 lw : ℚ)
  | imageAt (fmt : String) (x y w h : ℚ)
  | saved (filename : String)
deriving Repr, DecidableEq

/-- The JavaScript value returned by a method: `this` (the instance) or
`undefined` (a method body ending without a `return` statement). -/
inductive MethodRet where
  | self
  | undefinedVal
deriving Repr, DecidableEq

/-- The mutable fields of the `EasyPDF` class together with the list of
drawing calls issued so far. -/
@[ext]
structure PdfState where
  pageIndex : Nat
  writeX : ℚ
  writeY : ℚ
  lastLineHeight : ℚ
  pageWidth : ℚ
  pageHeight : ℚ
  pagePaddingX : ℚ
  pagePaddingY : ℚ
  fontSize : ℚ
  events : List RenderEvent
deriving Repr, DecidableEq

/-- `get clientWidth() { return this.#pageWidth - this.#pagePaddingX * 2; }` -/
def clientWidth (s : PdfState) : ℚ := s.pageWidth - s.pagePaddingX * 2

/-- `get clientHeight() { return this.#pageHeight - this.#pagePaddingY * 2; }` -/
def clientHeight (s : PdfState) : ℚ := s.pageHeight - s.pagePaddingY * 2

/-- Constructor options (page size already resolved to width/height in mm,
as `jsPDF.internal.pageSize` would report it). -/
structure InitOptions where
  pageWidth : ℚ
  pageHeight : ℚ
  fontSize : ℚ
  pagePaddingX : ℚ
  pagePaddingY : ℚ
deriving Repr, DecidableEq

/-- The state after the constructor ran: page 1, cursor at
(pagePaddingX, pagePaddingY), no drawing calls issued. -/
def initState (o : InitOptions) : PdfState :=
  { pageIndex := 1
    writeX := o.pagePaddingX
    writeY := o.pagePaddingY
    lastLineHeight := 0
    pageWidth := o.pageWidth
    pageHeight := o.pageHeight
    pagePaddingX := o.pagePaddingX
    pagePaddingY := o.pagePaddingY
    fontSize := o.fontSize
    events := [] }

/-- `#checkWriteY(height)` of `src/src/index.js`: if `writeY + height`
exceeds `pageHeight - pagePaddingY`, add a page, increment the page index
and reset `writeY` to the top padding.  This variant returns no value. -/
def checkWriteY (height : ℚ) (s : PdfState) : PdfState :=
  if s.writeY + height > s.pageHeight - s.pagePaddingY then
    { s with
      pageIndex := s.pageIndex + 1
      writeY := s.pagePaddingY
      events := s.events ++ [RenderEvent.addPage] }
  else s

/-- `#checkWriteY(height)` of the `part_000` variant: same state change, but
it returns `false` from the pagination branch and `true` otherwise. -/
def checkWriteYRet (height : ℚ) (s : PdfState) : PdfState × Bool :=
  if s.writeY + height > s.pageHeight - s.pagePaddingY then
    ({ s with
       pageIndex := s.pageIndex + 1
       writeY := s.pagePaddingY
       events := s.events ++ [RenderEvent.addPage] }, false)
  else (s, true)

/-- `#getLineHeight(fontSize) { return fontSize * 0.55; }` -/
def getLineHeight (fontSize : ℚ) : ℚ := fontSize * (11 / 20)

/-- `#getTextWriteY(fontSize) { return this.#writeY + fontSize * 0.4; }` -/
def getTextWriteY (s : PdfState) (fontSize : ℚ) : ℚ := s.writeY + fontSize * (2 / 5)

/-- The line-break idiom repeated in `addText` (article branch), `addLine`,
`addImage` and `addSpace`:
`if (writeX !== pagePaddingX) { writeX = pagePaddingX; writeY += lastLineHeight; }` -/
def lineBreakIfNeeded (s : PdfState) : PdfState :=
  if s.writeX ≠ s.pagePaddingX then
    { s with writeX := s.pagePaddingX, writeY := s.writeY + s.lastLineHeight }
  else s

/-- Options of `addText` after merging with the defaults
`{fontSize: this.#fontSize, color: this.#color, left: 0, right: 0, article: false}`
(the color option has no layout effect and is not modelled). -/
structure TextOptions where
  fontSize : ℚ
  left : ℚ
  right : ℚ
  article : Bool
deriving Repr, DecidableEq

/-- `const remainWidth = this.#clientWidth - this.#writeX - options.left - this.#pagePaddingX;` -/
def remainWidthOf (opts : TextOptions) (s : PdfState) : ℚ :=
  clientWidth s - s.writeX - opts.left - s.pagePaddingX

/-- The character-by-character greedy probe of `addText`:
`for (const c of text) { const width = getTextWidth(firstLine + c);
if (width > remainWidth) break; firstWidth = width; firstLine += c; }` -/
def firstLineLoop (m : String → ℚ) (remainWidth : ℚ) :
    List Char → List Char → ℚ → List Char × ℚ
  | [], acc, accWidth => (acc, accWidth)
  | c :: cs, acc, accWidth =>
    let width := m ⟨acc ++ [c]⟩
    if width > remainWidth then (acc, accWidth)
    else firstLineLoop m remainWidth cs (acc ++ [c]) width

/-- The first-line fragment and its recorded width, starting from
`firstLine = ''`, `firstWidth = 0`. -/
def firstLineOf (m : String → ℚ) (remainWidth : ℚ) (text : String) : String × ℚ :=
  let r := firstLineLoop m remainWidth text.data [] 0
  (⟨r.1⟩, r.2)

/-- Writing the first-line fragment:
`this.#checkWriteY(lineHeight);
this.#pdf.text(firstLine, this.#writeX, this.#getTextWriteY(options.fontSize));
this.#writeX += firstWidth;` -/
def writeFirstLine (firstLine : String) (firstWidth fontSize lineHeight : ℚ)
    (s : PdfState) : PdfState :=
  let s2 := checkWriteY lineHeight s
  { s2 with
    events := s2.events ++ [RenderEvent.textAt firstLine s2.writeX (getTextWriteY s2 fontSize)]
    writeX := s2.writeX + firstWidth }

/-- The loop over `splitTextToSize`'s lines: each iteration advances
`writeY` by the line height, resets `writeX`, paginates, renders, and the
last iteration records `writeX = pagePaddingX + getTextWidth(text)`. -/
def writeRestLines (m : String → ℚ) (fontSize lineHeight : ℚ) :
    List String → PdfState → PdfState
  | [], s => s
  | t :: ts, s =>
    let s1 := { s with writeY := s.writeY + lineHeight, writeX := s.pagePaddingX }
    let s2 := checkWriteY lineHeight s1
    let s3 := { s2 with
      events := s2.events ++ [RenderEvent.textAt t s2.writeX (getTextWriteY s2 fontSize)] }
    let s4 := if ts = [] then { s3 with writeX := s3.pagePaddingX + m t } else s3
    writeRestLines m fontSize lineHeight ts s4

/-- The tail of `addText`: in article mode break to a new line, otherwise
add the right margin and wrap when `writeX > clientWidth + pageIndex`. -/
def endAdvance (article : Bool) (right lineHeight : ℚ) (s : PdfState) : PdfState :=
  if article then
    { s with writeX := s.pagePaddingX, writeY := s.writeY + lineHeight }
  else
    let s1 := { s with writeX := s.writeX + right }
    if s1.writeX > clientWidth s1 + (s1.pageIndex : ℚ) then
      { s1 with writeX := s1.pagePaddingX, writeY := s1.writeY + lineHeight }
    else s1

/-- Everything `addText` does before its final advance: the article-mode
line break, the greedy first line, and the wrapped rest lines. -/
def addTextCore (m : String → ℚ) (sp : String → ℚ → List String)
    (text : String) (opts : TextOptions) (s0 : PdfState) : PdfState :=
  let lineHeight := getLineHeight opts.fontSize
  let s1 := if opts.article then lineBreakIfNeeded s0 else s0
  let remainWidth := remainWidthOf opts s1
  let fl := firstLineOf m remainWidth text
  let s3 := writeFirstLine fl.1 fl.2 opts.fontSize lineHeight s1
  if fl.1.length ≠ text.length then
    writeRestLines m opts.fontSize lineHeight
      (sp ⟨text.data.drop fl.1.data.length⟩ (clientWidth s3)) s3
  else s3

/-- `addText(text, options)` of `src/src/index.js`; returns `this`. -/
def addText (m : String → ℚ) (sp : String → ℚ → List String)
    (text : String) (opts : TextOptions) (s0 : PdfState) : PdfState × MethodRet :=
  let lineHeight := getLineHeight opts.fontSize
  let s4 := addTextCore m sp text opts s0
  let s5 := endAdvance opts.article opts.right lineHeight s4
  ({ s5 with lastLineHeight := lineHeight }, MethodRet.self)

/-- `addArticle(text, options) { return this.addText(text, { ...options, article: true }); }` -/
def addArticle (m : String → ℚ) (sp : String → ℚ → List String)
    (text : String) (opts : TextOptions) (s0 : PdfState) : PdfState × MethodRet :=
  addText m sp text { opts with article := true } s0

/-- Options of `addLine` after merging with the defaults
`{top: 4, bottom: 4, lineWidth: 0.5, color: this.#color}`. -/
structure LineOptions where
  top : ℚ
  bottom : ℚ
  lineWidth : ℚ
deriving Repr, DecidableEq

/-- `addLine(options)` of `src/src/index.js`; returns `this`. -/
def addLine (opts : LineOptions) (s0 : PdfState) : PdfState × MethodRet :=
  let s1 := lineBreakIfNeeded s0
  let s2 := checkWriteY (opts.top + opts.lineWidth) s1
  let s3 := { s2 with
    events := s2.events ++
      [RenderEvent.lineAt s2.pagePaddingX (s2.writeY + opts.top)
        (s2.pageWidth - s2.pagePaddingX) (s2.writeY + opts.top) opts.lineWidth] }
  ({ s3 with writeY := s3.writeY + opts.top + opts.lineWidth + opts.bottom },
   MethodRet.self)

/-- The `height` option of `addImage`: a number, or `'auto'`. -/
inductive HeightOpt where
  | auto
  | fixed (q : ℚ)
deriving Repr, DecidableEq

/-- Options of `addImage` after merging with the defaults
`{top: 4, bottom: 4, width: this.#clientWidth, height: 'auto', format: 'PNG'}`. -/
structure ImageOptions where
  top : ℚ
  bottom : ℚ
  width : ℚ
  height : HeightOpt
  format : String
deriving Repr, DecidableEq

/-- What `getImageProperties` reports: the intrinsic pixel dimensions. -/
structure ImgProps where
  width : ℚ
  height : ℚ
deriving Repr, DecidableEq

/-- `let height = options.height;
if (height === 'auto') { height = (options.width * imgProperties.height) / imgProperties.width; }` -/
def imageHeight (props : ImgProps) (opts : ImageOptions) : ℚ :=
  match opts.height with
  | HeightOpt.auto => opts.width * props.height / props.width
  | HeightOpt.fixed q => q

/-- `addImage(img, options)` of `src/src/index.js`.  The body ends with
`this.#writeY += height;` and has no `return` statement, so the method
returns `undefined`.  Note the format argument of the delegated call is the
literal `'PNG'`. -/
def addImage (props : ImgProps) (opts : ImageOptions) (s0 : PdfState) :
    PdfState × MethodRet :=
  let height := imageHeight props opts
  let s1 := lineBreakIfNeeded s0
  let s2 := { s1 with writeX := (s1.pageWidth - opts.width) / 2 }
  let s3 := checkWriteY height s2
  let s4 := { s3 with
    events := s3.events ++
      [RenderEvent.imageAt "PNG" s3.writeX s3.writeY opts.width height] }
  ({ s4 with writeX := s4.pagePaddingX, writeY := s4.writeY + height },
   MethodRet.undefinedVal)

/-- `addSpace(height = 5)` of `src/src/index.js`; returns `this`. -/
def addSpace (height : ℚ) (s0 : PdfState) : PdfState × MethodRet :=
  let s1 := lineBreakIfNeeded s0
  let s2 := checkWriteY height s1
  ({ s2 with writeY := s2.writeY + height, writeX := s2.pagePaddingX },
   MethodRet.self)

/-- `save(filename)` of `src/src/index.js`; delegates to the library and
returns `this`. -/
def save (filename : String) (s : PdfState) : PdfState × MethodRet :=
  ({ s with events := s.events ++ [RenderEvent.saved filename] }, MethodRet.self)

/-- One public operation of the fluent API. -/
inductive Op where
  | text (t : String) (opts : TextOptions)
  | article (t : String) (opts : TextOptions)
  | line (opts : LineOptions)
  | image (props : ImgProps) (opts : ImageOptions)
  | space (h : ℚ)
  | saveOp (filename : String)
deriving Repr, DecidableEq

/-- Run one public operation, keeping the state (the JS return value is
dropped). -/
def runOp (m : String → ℚ) (sp : String → ℚ → List String) (op : Op)
    (s : PdfState) : PdfState :=
  match op with
  | Op.text t opts => (addText m sp t opts s).1
  | Op.article t opts => (addArticle m sp t opts s).1
  | Op.line opts => (addLine opts s).1
  | Op.image props opts => (addImage props opts s).1
  | Op.space h => (addSpace h s).1
  | Op.saveOp f => (save f s).1

/-- Run a sequence of public operations. -/
def runOps (m : String → ℚ) (sp : String → ℚ → List String) (l : List Op)
    (s : PdfState) : PdfState :=
  l.foldl (fun s op => runOp m sp op s) s

/-- A concrete measurement function used to instantiate theorems on
concrete inputs: each character one unit wide. -/
def lenMeasure (t : String) : ℚ := (t.data.length : ℚ)

/-- A concrete splitter used to instantiate theorems on concrete inputs:
no splitting at all. -/
def splitAll (t : String) (_ : ℚ) : List String := [t]

/-- The default A4 configuration of the constructor. -/
def stdInit : InitOptions :=
  { pageWidth := 210, pageHeight := 297, fontSize := 16
    pagePaddingX := 10, pagePaddingY := 10 }

/-- The horizontal cursor range the engine actually maintains after an
operation completes: at least the left margin, at most the inline wrap
threshold `clientWidth + pageIndex` of the code. -/
def WriteXInv (s : PdfState) : Prop :=
  s.pagePaddingX ≤ s.writeX ∧ s.writeX ≤ clientWidth s + (s.pageIndex : ℚ)

/-- Geometry sanity: nonnegative padding that leaves room for the content
area (`3 · pagePaddingX ≤ pageWidth`). -/
def DimsOk (s : PdfState) : Prop :=
  0 ≤ s.pagePaddingX ∧ s.pagePaddingX * 3 ≤ s.pageWidth

/-- The options of an operation carry no negative inline right margin. -/
def OpNonneg : Op → Prop
  | Op.text _ o => 0 ≤ o.right
  | _ => True

/-! ### Field preservation of the individual stages -/

theorem checkWriteY_pagePaddingX (h : ℚ) (s : PdfState) :
    (checkWriteY h s).pagePaddingX = s.pagePaddingX := by
  unfold checkWriteY; split <;> rfl

theorem checkWriteY_pagePaddingY (h : ℚ) (s : PdfState) :
    (checkWriteY h s).pagePaddingY = s.pagePaddingY := by
  unfold checkWriteY; split <;> rfl

theorem checkWriteY_pageWidth (h : ℚ) (s : PdfState) :
    (checkWriteY h s).pageWidth = s.pageWidth := by
  unfold checkWriteY; split <;> rfl

theorem checkWriteY_pageHeight (h : ℚ) (s : PdfState) :
    (checkWriteY h s).pageHeight = s.pageHeight := by
  unfold checkWriteY; split <;> rfl

theorem checkWriteY_writeX (h : ℚ) (s : PdfState) :
    (checkWriteY h s).writeX = s.writeX := by
  unfold checkWriteY; split <;> rfl

theorem checkWriteY_lastLineHeight (h : ℚ) (s : PdfState) :
    (checkWriteY h s).lastLineHeight = s.lastLineHeight := by
  unfold checkWriteY; split <;> rfl

theorem checkWriteY_events (h : ℚ) (s : PdfState) :
    ∃ t, (checkWriteY h s).events = s.events ++ t := by
  unfold checkWriteY; split
  · exact ⟨_, rfl⟩
  · exact ⟨[], by simp⟩

theorem lineBreakIfNeeded_pagePaddingX (s : PdfState) :
    (lineBreakIfNeeded s).pagePaddingX = s.pagePaddingX := by
  unfold lineBreakIfNeeded; split <;> rfl

theorem lineBreakIfNeeded_pagePaddingY (s : PdfState) :
    (lineBreakIfNeeded s).pagePaddingY = s.pagePaddingY := by
  unfold lineBreakIfNeeded; split <;> rfl

theorem lineBreakIfNeeded_pageWidth (s : PdfState) :
    (lineBreakIfNeeded s).pageWidth = s.pageWidth := by
  unfold lineBreakIfNeeded; split <;> rfl

theorem lineBreakIfNeeded_pageHeight (s : PdfState) :
    (lineBreakIfNeeded s).pageHeight = s.pageHeight := by
  unfold lineBreakIfNeeded; split <;> rfl

theorem lineBreakIfNeeded_events (s : PdfState) :
    (lineBreakIfNeeded s).events = s.events := by
  unfold lineBreakIfNeeded; split <;> rfl

theorem lineBreakIfNeeded_writeX (s : PdfState) :
    (lineBreakIfNeeded s).writeX = s.pagePaddingX := by
  unfold lineBreakIfNeeded; split
  · rfl
  · next h => exact not_ne_iff.mp h

theorem events_ext_trans {a b c : List RenderEvent}
    (h1 : ∃ u, b = a ++ u) (h2 : ∃ v, c = b ++ v) : ∃ w, c = a ++ w := by
  obtain ⟨u, hu⟩ := h1
  obtain ⟨v, hv⟩ := h2
  exact ⟨u ++ v, by rw [hv, hu, List.append_assoc]⟩

theorem writeRestLines_pagePaddingX (m : String → ℚ) (fs lh : ℚ) :
    ∀ (l : List String) (s : PdfState),
      (writeRestLines m fs lh l s).pagePaddingX = s.pagePaddingX := by
  intro l
  induction l with
  | nil => intro s; rfl
  | cons t ts ih =>
    intro s
    simp only [writeRestLines]
    rw [ih]
    split <;> simp [checkWriteY_pagePaddingX]

theorem writeRestLines_pagePaddingY (m : String → ℚ) (fs lh : ℚ) :
    ∀ (l : List String) (s : PdfState),
      (writeRestLines m fs lh l s).pagePaddingY = s.pagePaddingY := by
  intro l
  induction l with
  | nil => intro s; rfl
  | cons t ts ih =>
    intro s
    simp only [writeRestLines]
    rw [ih]
    split <;> simp [checkWriteY_pagePaddingY]

theorem writeRestLines_pageWidth (m : String → ℚ) (fs lh : ℚ) :
    ∀ (l : List String) (s : PdfState),
      (writeRestLines m fs lh l s).pageWidth = s.pageWidth := by
  intro l
  induction l with
  | nil => intro s; rfl
  | cons t ts ih =>
    intro s
    simp only [writeRestLines]
    rw [ih]
    split <;> simp [checkWriteY_pageWidth]

theorem writeRestLines_pageHeight (m : String → ℚ) (fs lh : ℚ) :
    ∀ (l : List String) (s : PdfState),
      (writeRestLines m fs lh l s).pageHeight = s.pageHeight := by
  intro l
  induction l with
  | nil => intro s; rfl
  | cons t ts ih =>
    intro s
    simp only [writeRestLines]
    rw [ih]
    split <;> simp [checkWriteY_pageHeight]

theorem writeRestLines_events (m : String → ℚ) (fs lh : ℚ) :
    ∀ (l : List String) (s : PdfState),
      ∃ t, (writeRestLines m fs lh l s).events = s.events ++ t := by
  intro l
  induction l with
  | nil => intro s; exact ⟨[], by simp [writeRestLines]⟩
  | cons t ts ih =>
    intro s
    simp only [writeRestLines]
    refine events_ext_trans (b := (checkWriteY lh
      { s with writeY := s.writeY + lh, writeX := s.pagePaddingX }).events) ?_ ?_
    · exact checkWriteY_events lh _
    · refine events_ext_trans (a := (checkWriteY lh
        { s with writeY := s.writeY + lh, writeX := s.pagePaddingX }).events)
        (b := (checkWriteY lh
        { s with writeY := s.writeY + lh, writeX := s.pagePaddingX }).events ++
          [RenderEvent.textAt t (checkWriteY lh
            { s with writeY := s.writeY + lh, writeX := s.pagePaddingX }).writeX
            (getTextWriteY (checkWriteY lh
              { s with writeY := s.writeY + lh, writeX := s.pagePaddingX }) fs)]) ⟨_, rfl⟩ ?_
      split
      · exact ih _
      · exact ih _

/-! ### The greedy first-line probe -/

theorem measure_mono_append (m : String → ℚ)
    (hmono : ∀ (l : List Char) (c : Char), m ⟨l⟩ ≤ m ⟨l ++ [c]⟩) :
    ∀ (l2 l1 : List Char), m ⟨l1⟩ ≤ m ⟨l1 ++ l2⟩ := by
  intro l2
  induction l2 with
  | nil => intro l1; simp
  | cons c t ih =>
    intro l1
    calc m ⟨l1⟩ ≤ m ⟨l1 ++ [c]⟩ := hmono l1 c
      _ ≤ m ⟨(l1 ++ [c]) ++ t⟩ := ih (l1 ++ [c])
      _ = m ⟨l1 ++ c :: t⟩ := by simp

theorem take_measure_mono (m : String → ℚ)
    (hmono : ∀ (l : List Char) (c : Char), m ⟨l⟩ ≤ m ⟨l ++ [c]⟩)
    (cs : List Char) {j n : ℕ} (hjn : j ≤ n) :
    m ⟨cs.take j⟩ ≤ m ⟨cs.take n⟩ := by
  have h1 : cs.take j ++ (cs.take n).drop j = cs.take n := by
    rw [show cs.take j = (cs.take n).take j from by
      rw [List.take_take, Nat.min_eq_left hjn]]
    exact List.take_append_drop j (cs.take n)
  calc m ⟨cs.take j⟩ ≤ m ⟨cs.take j ++ (cs.take n).drop j⟩ :=
        measure_mono_append m hmono _ _
    _ = m ⟨cs.take n⟩ := by rw [h1]

theorem firstLineLoop_spec (m : String → ℚ) (W : ℚ) :
    ∀ (cs acc : List Char) (w : ℚ), w = m ⟨acc⟩ → m ⟨acc⟩ ≤ W →
    ∃ k, k ≤ cs.length ∧
      firstLineLoop m W cs acc w = (acc ++ cs.take k, m ⟨acc ++ cs.take k⟩) ∧
      m ⟨acc ++ cs.take k⟩ ≤ W ∧
      (k < cs.length → W < m ⟨acc ++ cs.take (k + 1)⟩) := by
  intro cs
  induction cs with
  | nil =>
    intro acc w hw hle
    exact ⟨0, Nat.le_refl 0, by simp [firstLineLoop, hw], by simpa using hle,
      by intro h; cases (Nat.not_lt_zero 0 h)⟩
  | cons c cs ih =>
    intro acc w hw hle
    by_cases hgt : m ⟨acc ++ [c]⟩ > W
    · refine ⟨0, Nat.zero_le _, ?_, by simpa using hle, ?_⟩
      · simp [firstLineLoop, hgt, hw]
      · intro _
        simpa using hgt
    · push_neg at hgt
      obtain ⟨k, hk, heq, hbound, hnext⟩ := ih (acc ++ [c]) (m ⟨acc ++ [c]⟩) rfl hgt
      refine ⟨k + 1, Nat.succ_le_succ hk, ?_, ?_, ?_⟩
      · have : firstLineLoop m W (c :: cs) acc w
            = firstLineLoop m W cs (acc ++ [c]) (m ⟨acc ++ [c]⟩) := by
          simp [firstLineLoop, not_lt.mpr hgt]
        rw [this, heq]
        simp
      · simpa using hbound
      · intro hlt
        have hlt' : k < cs.length := by simpa using hlt
        have := hnext hlt'
        simpa using this

theorem firstLineOf_spec (m : String → ℚ) (W : ℚ) (text : String)
    (hmono : ∀ (l : List Char) (c : Char), m ⟨l⟩ ≤ m ⟨l ++ [c]⟩)
    (hempty : m ⟨[]⟩ = 0) (hW : 0 ≤ W) :
    (firstLineOf m W text).2 = m (firstLineOf m W text).1 ∧
    ∀ n, n ≤ text.data.length →
      (m ⟨text.data.take n⟩ ≤ W ↔ n ≤ (firstLineOf m W text).1.data.length) := by
  obtain ⟨k, hk, heq, hbound, hnext⟩ :=
    firstLineLoop_spec m W text.data [] 0 hempty.symm (by rw [hempty]; exact hW)
  have hfl : firstLineOf m W text = (⟨text.data.take k⟩, m ⟨text.data.take k⟩) := by
    unfold firstLineOf
    rw [heq]
    simp
  have hlen : (firstLineOf m W text).1.data.length = k := by
    rw [hfl]
    simpa using Nat.min_eq_left hk
  constructor
  · rw [hfl]
  · intro n hn
    rw [hlen]
    constructor
    · intro hle
      by_contra hnk
      push_neg at hnk
      have hklt : k < text.data.length := Nat.lt_of_lt_of_le hnk hn
      have h1 : W < m ⟨text.data.take (k + 1)⟩ := by simpa using hnext hklt
      have h2 : m ⟨text.data.take (k + 1)⟩ ≤ m ⟨text.data.take n⟩ :=
        take_measure_mono m hmono text.data hnk
      exact absurd hle (not_le.mpr (lt_of_lt_of_le h1 h2))
    · intro hnk
      calc m ⟨text.data.take n⟩ ≤ m ⟨text.data.take k⟩ :=
            take_measure_mono m hmono text.data hnk
        _ ≤ W := by simpa using hbound

theorem firstLineLoop_snd_nonneg (m : String → ℚ) (hm : ∀ t, 0 ≤ m t) (W : ℚ) :
    ∀ (cs acc : List Char) (w : ℚ), 0 ≤ w → 0 ≤ (firstLineLoop m W cs acc w).2 := by
  intro cs
  induction cs with
  | nil => intro acc w hw; simpa [firstLineLoop] using hw
  | cons c cs ih =>
    intro acc w hw
    simp only [firstLineLoop]
    split
    · simpa using hw
    · exact ih (acc ++ [c]) _ (hm _)

/-! ### Field preservation through addText's stages -/

theorem writeFirstLine_pagePaddingX (fl : String) (fw fs lh : ℚ) (s : PdfState) :
    (writeFirstLine fl fw fs lh s).pagePaddingX = s.pagePaddingX := by
  simp [writeFirstLine, checkWriteY_pagePaddingX]

theorem writeFirstLine_pagePaddingY (fl : String) (fw fs lh : ℚ) (s : PdfState) :
    (writeFirstLine fl fw fs lh s).pagePaddingY = s.pagePaddingY := by
  simp [writeFirstLine, checkWriteY_pagePaddingY]

theorem writeFirstLine_pageWidth (fl : String) (fw fs lh : ℚ) (s : PdfState) :
    (writeFirstLine fl fw fs lh s).pageWidth = s.pageWidth := by
  simp [writeFirstLine, checkWriteY_pageWidth]

theorem writeFirstLine_pageHeight (fl : String) (fw fs lh : ℚ) (s : PdfState) :
    (writeFirstLine fl fw fs lh s).pageHeight = s.pageHeight := by
  simp [writeFirstLine, checkWriteY_pageHeight]

theorem writeFirstLine_writeX (fl : String) (fw fs lh : ℚ) (s : PdfState) :
    (writeFirstLine fl fw fs lh s).writeX = s.writeX + fw := by
  simp [writeFirstLine, checkWriteY_writeX]

theorem writeFirstLine_events (fl : String) (fw fs lh : ℚ) (s : PdfState) :
    (writeFirstLine fl fw fs lh s).events =
      (checkWriteY lh s).events ++
        [RenderEvent.textAt fl (checkWriteY lh s).writeX
          (getTextWriteY (checkWriteY lh s) fs)] := rfl

theorem articleIf_pagePaddingX (b : Bool) (s : PdfState) :
    (if b then lineBreakIfNeeded s else s).pagePaddingX = s.pagePaddingX := by
  cases b <;> simp [lineBreakIfNeeded_pagePaddingX]

theorem articleIf_pagePaddingY (b : Bool) (s : PdfState) :
    (if b then lineBreakIfNeeded s else s).pagePaddingY = s.pagePaddingY := by
  cases b <;> simp [lineBreakIfNeeded_pagePaddingY]

theorem articleIf_pageWidth (b : Bool) (s : PdfState) :
    (if b then lineBreakIfNeeded s else s).pageWidth = s.pageWidth := by
  cases b <;> simp [lineBreakIfNeeded_pageWidth]

theorem articleIf_pageHeight (b : Bool) (s : PdfState) :
    (if b then lineBreakIfNeeded s else s).pageHeight = s.pageHeight := by
  cases b <;> simp [lineBreakIfNeeded_pageHeight]

theorem addTextCore_pagePaddingX (m : String → ℚ) (sp : String → ℚ → List String)
    (text : String) (opts : TextOptions) (s : PdfState) :
    (addTextCore m sp text opts s).pagePaddingX = s.pagePaddingX := by
  simp only [addTextCore]
  split <;> split <;>
    simp [writeRestLines_pagePaddingX, writeFirstLine_pagePaddingX, lineBreakIfNeeded_pagePaddingX]

theorem addTextCore_pagePaddingY (m : String → ℚ) (sp : String → ℚ → List String)
    (text : String) (opts : TextOptions) (s : PdfState) :
    (addTextCore m sp text opts s).pagePaddingY = s.pagePaddingY := by
  simp only [addTextCore]
  split <;> split <;>
    simp [writeRestLines_pagePaddingY, writeFirstLine_pagePaddingY, lineBreakIfNeeded_pagePaddingY]

theorem addTextCore_pageWidth (m : String → ℚ) (sp : String → ℚ → List String)
    (text : String) (opts : TextOptions) (s : PdfState) :
    (addTextCore m sp text opts s).pageWidth = s.pageWidth := by
  simp only [addTextCore]
  split <;> split <;>
    simp [writeRestLines_pageWidth, writeFirstLine_pageWidth, lineBreakIfNeeded_pageWidth]

theorem addTextCore_pageHeight (m : String → ℚ) (sp : String → ℚ → List String)
    (text : String) (opts : TextOptions) (s : PdfState) :
    (addTextCore m sp text opts s).pageHeight = s.pageHeight := by
  simp only [addTextCore]
  split <;> split <;>
    simp [writeRestLines_pageHeight, writeFirstLine_pageHeight, lineBreakIfNeeded_pageHeight]

theorem endAdvance_pagePaddingX (a : Bool) (r lh : ℚ) (s : PdfState) :
    (endAdvance a r lh s).pagePaddingX = s.pagePaddingX := by
  simp only [endAdvance]
  split
  · rfl
  · split <;> rfl

theorem endAdvance_pagePaddingY (a : Bool) (r lh : ℚ) (s : PdfState) :
    (endAdvance a r lh s).pagePaddingY = s.pagePaddingY := by
  simp only [endAdvance]
  split
  · rfl
  · split <;> rfl

theorem endAdvance_pageWidth (a : Bool) (r lh : ℚ) (s : PdfState) :
    (endAdvance a r lh s).pageWidth = s.pageWidth := by
  simp only [endAdvance]
  split
  · rfl
  · split <;> rfl

theorem endAdvance_pageHeight (a : Bool) (r lh : ℚ) (s : PdfState) :
    (endAdvance a r lh s).pageHeight = s.pageHeight := by
  simp only [endAdvance]
  split
  · rfl
  · split <;> rfl

theorem endAdvance_pageIndex (a : Bool) (r lh : ℚ) (s : PdfState) :
    (endAdvance a r lh s).pageIndex = s.pageIndex := by
  simp only [endAdvance]
  split
  · rfl
  · split <;> rfl

theorem endAdvance_events (a : Bool) (r lh : ℚ) (s : PdfState) :
    (endAdvance a r lh s).events = s.events := by
  simp only [endAdvance]
  split
  · rfl
  · split <;> rfl

theorem writeRestLines_writeX_of_ne (m : String → ℚ) (fs lh : ℚ) :
    ∀ (l : List String) (s : PdfState) (hne : l ≠ []),
      (writeRestLines m fs lh l s).writeX = s.pagePaddingX + m (l.getLast hne) := by
  intro l
  induction l with
  | nil => intro s hne; exact absurd rfl hne
  | cons t ts ih =>
    intro s hne
    simp only [writeRestLines]
    by_cases hts : ts = []
    · subst hts
      simp [writeRestLines, checkWriteY_pagePaddingX, checkWriteY_writeX]
    · rw [List.getLast_cons hts]
      split
      · exact absurd (by assumption) hts
      · rw [ih _ hts]
        simp [checkWriteY_pagePaddingX]

theorem writeRestLines_writeX_nil (m : String → ℚ) (fs lh : ℚ) (s : PdfState) :
    (writeRestLines m fs lh [] s).writeX = s.writeX := rfl

theorem addText_eq (m : String → ℚ) (sp : String → ℚ → List String)
    (text : String) (opts : TextOptions) (s : PdfState) :
    (addText m sp text opts s).1 =
      { endAdvance opts.article opts.right (getLineHeight opts.fontSize)
          (addTextCore m sp text opts s) with
        lastLineHeight := getLineHeight opts.fontSize } := rfl

theorem addText_pagePaddingX (m : String → ℚ) (sp : String → ℚ → List String)
    (text : String) (opts : TextOptions) (s : PdfState) :
    ((addText m sp text opts s).1).pagePaddingX = s.pagePaddingX := by
  rw [addText_eq]
  show (endAdvance _ _ _ _).pagePaddingX = _
  rw [endAdvance_pagePaddingX, addTextCore_pagePaddingX]

theorem addText_pageWidth (m : String → ℚ) (sp : String → ℚ → List String)
    (text : String) (opts : TextOptions) (s : PdfState) :
    ((addText m sp text opts s).1).pageWidth = s.pageWidth := by
  rw [addText_eq]
  show (endAdvance _ _ _ _).pageWidth = _
  rw [endAdvance_pageWidth, addTextCore_pageWidth]

theorem addText_pageHeight (m : String → ℚ) (sp : String → ℚ → List String)
    (text : String) (opts : TextOptions) (s : PdfState) :
    ((addText m sp text opts s).1).pageHeight = s.pageHeight := by
  rw [addText_eq]
  show (endAdvance _ _ _ _).pageHeight = _
  rw [endAdvance_pageHeight, addTextCore_pageHeight]

theorem addText_pagePaddingY (m : String → ℚ) (sp : String → ℚ → List String)
    (text : String) (opts : TextOptions) (s : PdfState) :
    ((addText m sp text opts s).1).pagePaddingY = s.pagePaddingY := by
  rw [addText_eq]
  show (endAdvance _ _ _ _).pagePaddingY = _
  rw [endAdvance_pagePaddingY, addTextCore_pagePaddingY]

theorem addLine_writeX (opts : LineOptions) (s : PdfState) :
    ((addLine opts s).1).writeX = s.pagePaddingX := by
  simp only [addLine]
  show (checkWriteY _ (lineBreakIfNeeded s)).writeX = _
  rw [checkWriteY_writeX, lineBreakIfNeeded_writeX]

theorem addLine_pagePaddingX (opts : LineOptions) (s : PdfState) :
    ((addLine opts s).1).pagePaddingX = s.pagePaddingX := by
  simp only [addLine]
  show (checkWriteY _ (lineBreakIfNeeded s)).pagePaddingX = _
  rw [checkWriteY_pagePaddingX, lineBreakIfNeeded_pagePaddingX]

theorem addLine_pageWidth (opts : LineOptions) (s : PdfState) :
    ((addLine opts s).1).pageWidth = s.pageWidth := by
  simp only [addLine]
  show (checkWriteY _ (lineBreakIfNeeded s)).pageWidth = _
  rw [checkWriteY_pageWidth, lineBreakIfNeeded_pageWidth]

theorem addSpace_writeX (h : ℚ) (s : PdfState) :
    ((addSpace h s).1).writeX = s.pagePaddingX := by
  simp only [addSpace]
  show (checkWriteY _ (lineBreakIfNeeded s)).pagePaddingX = _
  rw [checkWriteY_pagePaddingX, lineBreakIfNeeded_pagePaddingX]

theorem addSpace_pagePaddingX (h : ℚ) (s : PdfState) :
    ((addSpace h s).1).pagePaddingX = s.pagePaddingX := by
  simp only [addSpace]
  show (checkWriteY _ (lineBreakIfNeeded s)).pagePaddingX = _
  rw [checkWriteY_pagePaddingX, lineBreakIfNeeded_pagePaddingX]

theorem addSpace_pageWidth (h : ℚ) (s : PdfState) :
    ((addSpace h s).1).pageWidth = s.pageWidth := by
  simp only [addSpace]
  show (checkWriteY _ (lineBreakIfNeeded s)).pageWidth = _
  rw [checkWriteY_pageWidth, lineBreakIfNeeded_pageWidth]

theorem addImage_writeX (props : ImgProps) (opts : ImageOptions) (s : PdfState) :
    ((addImage props opts s).1).writeX = s.pagePaddingX := by
  simp only [addImage]
  show (checkWriteY _ _).pagePaddingX = _
  rw [checkWriteY_pagePaddingX]
  show (lineBreakIfNeeded s).pagePaddingX = _
  rw [lineBreakIfNeeded_pagePaddingX]

theorem addImage_pagePaddingX (props : ImgProps) (opts : ImageOptions) (s : PdfState) :
    ((addImage props opts s).1).pagePaddingX = s.pagePaddingX := by
  simp only [addImage]
  show (checkWriteY _ _).pagePaddingX = _
  rw [checkWriteY_pagePaddingX]
  show (lineBreakIfNeeded s).pagePaddingX = _
  rw [lineBreakIfNeeded_pagePaddingX]

theorem addImage_pageWidth (props : ImgProps) (opts : ImageOptions) (s : PdfState) :
    ((addImage props opts s).1).pageWidth = s.pageWidth := by
  simp only [addImage]
  show (checkWriteY _ _).pageWidth = _
  rw [checkWriteY_pageWidth]
  show (lineBreakIfNeeded s).pageWidth = _
  rw [lineBreakIfNeeded_pageWidth]

/-! ### The endAdvance branches -/

theorem endAdvance_true (r lh : ℚ) (u : PdfState) :
    endAdvance true r lh u =
      { u with writeX := u.pagePaddingX, writeY := u.writeY + lh } := rfl

theorem endAdvance_false (r lh : ℚ) (u : PdfState) :
    endAdvance false r lh u =
      if clientWidth u + (u.pageIndex : ℚ) < u.writeX + r then
        { u with writeX := u.pagePaddingX, writeY := u.writeY + lh }
      else { u with writeX := u.writeX + r } := rfl

theorem endAdvance_false_pos {r lh : ℚ} {u : PdfState}
    (h : clientWidth u + (u.pageIndex : ℚ) < u.writeX + r) :
    endAdvance false r lh u =
      { u with writeX := u.pagePaddingX, writeY := u.writeY + lh } := by
  rw [endAdvance_false, if_pos h]

theorem endAdvance_false_neg {r lh : ℚ} {u : PdfState}
    (h : u.writeX + r ≤ clientWidth u + (u.pageIndex : ℚ)) :
    endAdvance false r lh u = { u with writeX := u.writeX + r } := by
  rw [endAdvance_false, if_neg (not_lt.mpr h)]

/-! ### Concrete collaborator facts and nonnegativity -/

theorem firstLineOf_empty (m : String → ℚ) (W : ℚ) :
    firstLineOf m W "" = ("", 0) := rfl

theorem lenMeasure_mono (l : List Char) (c : Char) :
    lenMeasure ⟨l⟩ ≤ lenMeasure ⟨l ++ [c]⟩ := by
  show (l.length : ℚ) ≤ ((l ++ [c]).length : ℚ)
  rw [List.length_append]
  push_cast
  linarith

theorem lenMeasure_empty : lenMeasure ⟨[]⟩ = 0 := by
  show ((List.length [] : ℕ) : ℚ) = 0
  simp

theorem lenMeasure_nonneg (t : String) : 0 ≤ lenMeasure t := by
  unfold lenMeasure
  exact_mod_cast Nat.zero_le _

theorem firstLineOf_snd_nonneg (m : String → ℚ) (hm : ∀ t, 0 ≤ m t)
    (W : ℚ) (text : String) : 0 ≤ (firstLineOf m W text).2 :=
  firstLineLoop_snd_nonneg m hm W text.data [] 0 (le_refl 0)

theorem addTextCore_writeX_lower (m : String → ℚ) (hm : ∀ t, 0 ≤ m t)
    (sp : String → ℚ → List String) (text : String) (opts : TextOptions)
    (s : PdfState) (hs : s.pagePaddingX ≤ s.writeX) :
    s.pagePaddingX ≤ (addTextCore m sp text opts s).writeX := by
  simp only [addTextCore]
  set s1 := if opts.article = true then lineBreakIfNeeded s else s with hs1
  have h1pad : s1.pagePaddingX = s.pagePaddingX := articleIf_pagePaddingX _ s
  have h1 : s.pagePaddingX ≤ s1.writeX := by
    rw [hs1]
    split
    · rw [lineBreakIfNeeded_writeX]
    · exact hs
  have hfw : 0 ≤ (firstLineOf m (remainWidthOf opts s1) text).2 :=
    firstLineOf_snd_nonneg m hm _ text
  have h3 : s.pagePaddingX ≤
      (writeFirstLine (firstLineOf m (remainWidthOf opts s1) text).1
        (firstLineOf m (remainWidthOf opts s1) text).2 opts.fontSize
        (getLineHeight opts.fontSize) s1).writeX := by
    rw [writeFirstLine_writeX]
    linarith
  split
  · by_cases hl : sp
        ⟨text.data.drop (firstLineOf m (remainWidthOf opts s1) text).1.data.length⟩
        (clientWidth (writeFirstLine (firstLineOf m (remainWidthOf opts s1) text).1
          (firstLineOf m (remainWidthOf opts s1) text).2 opts.fontSize
          (getLineHeight opts.fontSize) s1)) = []
    · rw [hl]
      exact h3
    · rw [writeRestLines_writeX_of_ne _ _ _ _ _ hl, writeFirstLine_pagePaddingX, h1pad]
      have := hm (List.getLast _ hl)
      linarith
  · exact h3

theorem runOps_cons (m : String → ℚ) (sp : String → ℚ → List String)
    (op : Op) (ops : List Op) (s : PdfState) :
    runOps m sp (op :: ops) s = runOps m sp ops (runOp m sp op s) := rfl

theorem runOp_pagePaddingX (m : String → ℚ) (sp : String → ℚ → List String)
    (op : Op) (s : PdfState) :
    (runOp m sp op s).pagePaddingX = s.pagePaddingX := by
  cases op with
  | text t o => exact addText_pagePaddingX m sp t o s
  | article t o => exact addText_pagePaddingX m sp t _ s
  | line o => exact addLine_pagePaddingX o s
  | image p o => exact addImage_pagePaddingX p o s
  | space h => exact addSpace_pagePaddingX h s
  | saveOp f => rfl

theorem runOp_pageWidth (m : String → ℚ) (sp : String → ℚ → List String)
    (op : Op) (s : PdfState) :
    (runOp m sp op s).pageWidth = s.pageWidth := by
  cases op with
  | text t o => exact addText_pageWidth m sp t o s
  | article t o => exact addText_pageWidth m sp t _ s
  | line o => exact addLine_pageWidth o s
  | image p o => exact addImage_pageWidth p o s
  | space h => exact addSpace_pageWidth h s
  | saveOp f => rfl

/-! ### The horizontal cursor invariant -/

theorem writeXInv_of_at_margin {s t : PdfState} (hd : DimsOk s)
    (h1 : t.pagePaddingX = s.pagePaddingX) (h2 : t.pageWidth = s.pageWidth)
    (h3 : t.writeX = s.pagePaddingX) : WriteXInv t := by
  obtain ⟨hd1, hd2⟩ := hd
  have hpi : (0:ℚ) ≤ (t.pageIndex : ℚ) := Nat.cast_nonneg _
  constructor
  · rw [h3, h1]
  · rw [h3]
    unfold clientWidth
    rw [h1, h2]
    linarith

theorem addText_article_writeX (m : String → ℚ) (sp : String → ℚ → List String)
    (t : String) (o : TextOptions) (s : PdfState) (ho : o.article = true) :
    ((addText m sp t o s).1).writeX = s.pagePaddingX := by
  rw [addText_eq, ho]
  show (addTextCore m sp t o s).pagePaddingX = s.pagePaddingX
  exact addTextCore_pagePaddingX m sp t o s

theorem addText_inline_writeXInv (m : String → ℚ) (sp : String → ℚ → List String)
    (t : String) (o : TextOptions) (s : PdfState) (hm : ∀ u, 0 ≤ m u)
    (ho : o.article = false) (hr : 0 ≤ o.right) (hd : DimsOk s)
    (hinv : WriteXInv s) : WriteXInv ((addText m sp t o s).1) := by
  have hcorepad : (addTextCore m sp t o s).pagePaddingX = s.pagePaddingX :=
    addTextCore_pagePaddingX m sp t o s
  have hcorew : (addTextCore m sp t o s).pageWidth = s.pageWidth :=
    addTextCore_pageWidth m sp t o s
  have hlow : s.pagePaddingX ≤ (addTextCore m sp t o s).writeX :=
    addTextCore_writeX_lower m hm sp t o s hinv.1
  have heq : (addText m sp t o s).1 =
      { endAdvance false o.right (getLineHeight o.fontSize)
          (addTextCore m sp t o s) with
        lastLineHeight := getLineHeight o.fontSize } := by
    rw [addText_eq, ho]
  set u := addTextCore m sp t o s with hu
  clear_value u
  by_cases hw : clientWidth u + (u.pageIndex : ℚ) < u.writeX + o.right
  · refine writeXInv_of_at_margin hd ?_ ?_ ?_
    · rw [heq, endAdvance_false_pos hw]
      exact hcorepad
    · rw [heq, endAdvance_false_pos hw]
      exact hcorew
    · rw [heq, endAdvance_false_pos hw]
      exact hcorepad
  · push_neg at hw
    rw [heq, endAdvance_false_neg hw]
    constructor
    · show u.pagePaddingX ≤ u.writeX + o.right
      rw [hcorepad]
      linarith
    · show u.writeX + o.right ≤ (u.pageWidth - u.pagePaddingX * 2) + (u.pageIndex : ℚ)
      have : clientWidth u = u.pageWidth - u.pagePaddingX * 2 := rfl
      linarith [hw]

theorem runOp_writeXInv (m : String → ℚ) (sp : String → ℚ → List String)
    (hm : ∀ u, 0 ≤ m u) (op : Op) (s : PdfState)
    (hop : OpNonneg op) (hd : DimsOk s) (hinv : WriteXInv s) :
    WriteXInv (runOp m sp op s) := by
  cases op with
  | text t o =>
    cases ho : o.article with
    | true =>
      exact writeXInv_of_at_margin hd (addText_pagePaddingX m sp t o s)
        (addText_pageWidth m sp t o s) (addText_article_writeX m sp t o s ho)
    | false =>
      exact addText_inline_writeXInv m sp t o s hm ho hop hd hinv
  | article t o =>
    exact writeXInv_of_at_margin hd (addText_pagePaddingX m sp t _ s)
      (addText_pageWidth m sp t _ s) (addText_article_writeX m sp t _ s rfl)
  | line o =>
    exact writeXInv_of_at_margin hd (addLine_pagePaddingX o s)
      (addLine_pageWidth o s) (addLine_writeX o s)
  | image p o =>
    exact writeXInv_of_at_margin hd (addImage_pagePaddingX p o s)
      (addImage_pageWidth p o s) (addImage_writeX p o s)
  | space h =>
    exact writeXInv_of_at_margin hd (addSpace_pagePaddingX h s)
      (addSpace_pageWidth h s) (addSpace_writeX h s)
  | saveOp f => exact hinv


/-! ### Claim theorems -/

/-- C5 (amended): starting from any constructor configuration with
nonnegative padding and `3·pagePaddingX ≤ pageWidth`, for a nonnegative
measurement function and operations whose inline right margins are
nonnegative, after every sequence of public operations the cursor satisfies
`pagePaddingX ≤ writeX ≤ clientWidth + pageIndex`.  The upper bound the
spec claims, `pageWidth − pagePaddingX`, is not maintained (see the
counterexample): the wrap threshold of the code is `clientWidth + pageIndex`. -/
theorem writeX_invariant_spec (m : String → ℚ) (sp : String → ℚ → List String)
    (hm : ∀ u, 0 ≤ m u) (l : List Op) (hops : ∀ op ∈ l, OpNonneg op)
    (c : InitOptions) (hpad : 0 ≤ c.pagePaddingX)
    (h3 : c.pagePaddingX * 3 ≤ c.pageWidth) :
    WriteXInv (runOps m sp l (initState c)) := by
  have H : ∀ (l : List Op) (s : PdfState), (∀ op ∈ l, OpNonneg op) →
      DimsOk s → WriteXInv s → WriteXInv (runOps m sp l s) := by
    intro l
    induction l with
    | nil => intro s _ _ h; exact h
    | cons op ops ih =>
      intro s hops hd hinv
      rw [runOps_cons]
      have hd' : DimsOk (runOp m sp op s) := by
        unfold DimsOk
        rw [runOp_pagePaddingX, runOp_pageWidth]
        exact hd
      exact ih _ (fun o ho => hops o (List.mem_cons_of_mem _ ho)) hd'
        (runOp_writeXInv m sp hm op s (hops op (List.mem_cons_self op ops)) hd hinv)
  apply H l _ hops ⟨hpad, h3⟩
  constructor
  · exact le_refl _
  · show c.pagePaddingX ≤ clientWidth (initState c) + ((1 : ℕ) : ℚ)
    unfold clientWidth initState
    push_cast
    linarith

/-- C5 witness: a concrete run satisfying the amended invariant. -/
theorem writeX_invariant_spec_witness :
    WriteXInv (runOps lenMeasure splitAll
      [Op.space 5, Op.text "ab" ⟨16, 0, 2, false⟩] (initState stdInit)) :=
  writeX_invariant_spec lenMeasure splitAll lenMeasure_nonneg
    [Op.space 5, Op.text "ab" ⟨16, 0, 2, false⟩]
    (by intro op hop
        simp only [List.mem_cons, List.not_mem_nil, or_false] at hop
        rcases hop with rfl | rfl
        · exact trivial
        · norm_num [OpNonneg])
    stdInit (by norm_num [stdInit]) (by norm_num [stdInit])

/-- C5 counterexample: with constructor padding `pagePaddingX = 0` and a
single `addText('', {right: 211})` call from the initial state, the cursor
ends at `writeX = 211 > pageWidth − pagePaddingX = 210` — a public
operation leaves writeX outside `[pagePaddingX, pageWidth − pagePaddingX]`. -/
theorem writeX_invariant_cex :
    (runOps lenMeasure splitAll [Op.text "" ⟨16, 0, 211, false⟩]
        (initState ⟨210, 297, 16, 0, 10⟩)).pageWidth
      - (runOps lenMeasure splitAll [Op.text "" ⟨16, 0, 211, false⟩]
        (initState ⟨210, 297, 16, 0, 10⟩)).pagePaddingX
      < (runOps lenMeasure splitAll [Op.text "" ⟨16, 0, 211, false⟩]
        (initState ⟨210, 297, 16, 0, 10⟩)).writeX := by
  norm_num [runOps, runOp, addText, addTextCore, endAdvance, writeFirstLine,
    firstLineOf, firstLineLoop, remainWidthOf, clientWidth, getLineHeight,
    getTextWriteY, lineBreakIfNeeded, checkWriteY, initState, lenMeasure, splitAll,
    List.foldl, String.length]


/-- C1 (amended): `checkWriteY(h)` paginates exactly when
`writeY + h > pageHeight − pagePaddingY`: it then appends a page,
increments the page index and resets writeY to pagePaddingY, leaving
writeX untouched; otherwise the state is unchanged.  The return value
(present only in the `part_000` variant; the `src/src/index.js` variant
returns nothing) is `true` exactly when NO pagination occurred: it reports
that the content fits, not that pagination happened. -/
theorem checkWriteY_spec (h : ℚ) (s : PdfState) :
    (s.pageHeight - s.pagePaddingY < s.writeY + h →
      checkWriteY h s =
        { s with
          pageIndex := s.pageIndex + 1
          writeY := s.pagePaddingY
          events := s.events ++ [RenderEvent.addPage] } ∧
      checkWriteYRet h s =
        ({ s with
           pageIndex := s.pageIndex + 1
           writeY := s.pagePaddingY
           events := s.events ++ [RenderEvent.addPage] }, false)) ∧
    (s.writeY + h ≤ s.pageHeight - s.pagePaddingY →
      checkWriteY h s = s ∧ checkWriteYRet h s = (s, true)) ∧
    (checkWriteY h s).writeX = s.writeX := by
  refine ⟨fun hgt => ⟨?_, ?_⟩, fun hle => ⟨?_, ?_⟩, checkWriteY_writeX h s⟩
  · unfold checkWriteY
    rw [if_pos hgt]
  · unfold checkWriteYRet
    rw [if_pos hgt]
  · unfold checkWriteY
    rw [if_neg (not_lt.mpr hle)]
  · unfold checkWriteYRet
    rw [if_neg (not_lt.mpr hle)]

/-- C1 witness: at the initial A4 state, height 300 overflows the page and
the guard paginates to page 2 with writeY back at the top padding, the
returning variant yielding `false`. -/
theorem checkWriteY_spec_witness :
    checkWriteY 300 (initState stdInit) =
      { initState stdInit with
        pageIndex := (initState stdInit).pageIndex + 1
        writeY := (initState stdInit).pagePaddingY
        events := (initState stdInit).events ++ [RenderEvent.addPage] } ∧
    checkWriteYRet 300 (initState stdInit) =
      ({ initState stdInit with
         pageIndex := (initState stdInit).pageIndex + 1
         writeY := (initState stdInit).pagePaddingY
         events := (initState stdInit).events ++ [RenderEvent.addPage] }, false) :=
  (checkWriteY_spec 300 (initState stdInit)).1 (by norm_num [initState, stdInit])

/-- C1 counterexample: at the initial A4 state with height 300, pagination
occurs (the page index becomes 2) yet the returning variant of the guard
yields `false`, not `true` — the return value does not report that
pagination occurred (and the `src/src/index.js` variant returns nothing). -/
theorem checkWriteY_return_cex :
    (checkWriteYRet 300 (initState stdInit)).1.pageIndex = 2 ∧
    (checkWriteYRet 300 (initState stdInit)).2 = false ∧
    ¬((checkWriteYRet 300 (initState stdInit)).2 = true) := by
  norm_num [checkWriteYRet, initState, stdInit]

/-- C4: for every text, options and prior state, `addArticle` leaves the
cursor X at the left margin `pagePaddingX` after returning. -/
theorem addArticle_leaves_margin (m : String → ℚ) (sp : String → ℚ → List String)
    (text : String) (opts : TextOptions) (s : PdfState) :
    ((addArticle m sp text opts s).1).writeX = s.pagePaddingX := by
  unfold addArticle
  exact addText_article_writeX m sp text _ s rfl

/-- C9 (amended): `addText`, `addArticle`, `addLine`, `addSpace` and `save`
return the instance (`this`) and can be chained; `addImage` however falls
off the end of its body without a `return` statement and returns
`undefined`, so a chain cannot be continued after it. -/
theorem fluent_returns_spec (m : String → ℚ) (sp : String → ℚ → List String)
    (text : String) (topts : TextOptions) (lopts : LineOptions)
    (props : ImgProps) (iopts : ImageOptions) (h : ℚ) (f : String)
    (s : PdfState) :
    (addText m sp text topts s).2 = MethodRet.self ∧
    (addArticle m sp text topts s).2 = MethodRet.self ∧
    (addLine lopts s).2 = MethodRet.self ∧
    (addSpace h s).2 = MethodRet.self ∧
    (save f s).2 = MethodRet.self ∧
    (addImage props iopts s).2 = MethodRet.undefinedVal :=
  ⟨rfl, rfl, rfl, rfl, rfl, rfl⟩

/-- C9 counterexample: `addImage` does not return the instance — its JS
return value is `undefined`, so the fluent chain breaks there. -/
theorem addImage_return_cex :
    (addImage ⟨100, 50⟩ ⟨4, 4, 190, HeightOpt.auto, "PNG"⟩
        (initState stdInit)).2 = MethodRet.undefinedVal ∧
    ¬((addImage ⟨100, 50⟩ ⟨4, 4, 190, HeightOpt.auto, "PNG"⟩
        (initState stdInit)).2 = MethodRet.self) :=
  ⟨rfl, fun hc => MethodRet.noConfusion hc⟩

/-- C10: the delegated `addImage` call always receives the literal format
`'PNG'`; the caller-supplied `options.format` is accepted and defaulted but
never read, so it cannot affect the call. -/
theorem addImage_format_spec (props : ImgProps) (opts : ImageOptions)
    (s : PdfState) :
    (∀ f : String, addImage props { opts with format := f } s
      = addImage props opts s) ∧
    ((addImage props opts s).1).events =
      (checkWriteY (imageHeight props opts)
        { lineBreakIfNeeded s with
          writeX := ((lineBreakIfNeeded s).pageWidth - opts.width) / 2 }).events ++
      [RenderEvent.imageAt "PNG"
        (checkWriteY (imageHeight props opts)
          { lineBreakIfNeeded s with
            writeX := ((lineBreakIfNeeded s).pageWidth - opts.width) / 2 }).writeX
        (checkWriteY (imageHeight props opts)
          { lineBreakIfNeeded s with
            writeX := ((lineBreakIfNeeded s).pageWidth - opts.width) / 2 }).writeY
        opts.width (imageHeight props opts)] :=
  ⟨fun _ => rfl, rfl⟩


/-- C6: `addLine` first forces a line break when the cursor is off the
left margin, paginates for `top + lineWidth`, draws a horizontal line at
`writeY + top` spanning from `pagePaddingX` to `pageWidth − pagePaddingX`,
advances writeY by exactly `top + lineWidth + bottom`, and leaves writeX
at the left margin. -/
theorem addLine_spec (opts : LineOptions) (s : PdfState) :
    (addLine opts s).1 =
      { checkWriteY (opts.top + opts.lineWidth) (lineBreakIfNeeded s) with
        events := (checkWriteY (opts.top + opts.lineWidth)
          (lineBreakIfNeeded s)).events ++
          [RenderEvent.lineAt s.pagePaddingX
            ((checkWriteY (opts.top + opts.lineWidth)
              (lineBreakIfNeeded s)).writeY + opts.top)
            (s.pageWidth - s.pagePaddingX)
            ((checkWriteY (opts.top + opts.lineWidth)
              (lineBreakIfNeeded s)).writeY + opts.top)
            opts.lineWidth]
        writeY := (checkWriteY (opts.top + opts.lineWidth)
          (lineBreakIfNeeded s)).writeY + opts.top + opts.lineWidth + opts.bottom } ∧
    ((addLine opts s).1).writeX = s.pagePaddingX ∧
    (s.writeX ≠ s.pagePaddingX →
      lineBreakIfNeeded s =
        { s with writeX := s.pagePaddingX, writeY := s.writeY + s.lastLineHeight }) := by
  refine ⟨?_, addLine_writeX opts s, fun hne => by unfold lineBreakIfNeeded; rw [if_pos hne]⟩
  simp only [addLine]
  rw [checkWriteY_pagePaddingX, checkWriteY_pageWidth,
    lineBreakIfNeeded_pagePaddingX, lineBreakIfNeeded_pageWidth]

/-- C6 witness: with the cursor off the margin the break fires. -/
theorem addLine_spec_witness :
    lineBreakIfNeeded { initState stdInit with writeX := 50 } =
      { { initState stdInit with writeX := 50 } with
        writeX := { initState stdInit with writeX := 50 }.pagePaddingX
        writeY := { initState stdInit with writeX := 50 }.writeY
          + { initState stdInit with writeX := 50 }.lastLineHeight } :=
  (addLine_spec ⟨4, 4, 1/2⟩ { initState stdInit with writeX := 50 }).2.2
    (by norm_num [initState, stdInit])

/-- C8: `addSpace(h)` forces a line break when the cursor is off the left
margin, paginates for `h`, advances writeY by exactly `h`, and leaves
writeX at the left margin `pagePaddingX`. -/
theorem addSpace_spec (h : ℚ) (s : PdfState) :
    (addSpace h s).1 =
      { checkWriteY h (lineBreakIfNeeded s) with
        writeY := (checkWriteY h (lineBreakIfNeeded s)).writeY + h
        writeX := s.pagePaddingX } ∧
    ((addSpace h s).1).writeX = s.pagePaddingX ∧
    (s.writeX ≠ s.pagePaddingX →
      lineBreakIfNeeded s =
        { s with writeX := s.pagePaddingX, writeY := s.writeY + s.lastLineHeight }) := by
  refine ⟨?_, addSpace_writeX h s, fun hne => by unfold lineBreakIfNeeded; rw [if_pos hne]⟩
  simp only [addSpace]
  rw [checkWriteY_pagePaddingX, lineBreakIfNeeded_pagePaddingX]

/-- C8 witness: the break fires off-margin; applied at a concrete state. -/
theorem addSpace_spec_witness :
    lineBreakIfNeeded { initState stdInit with writeX := 60 } =
      { { initState stdInit with writeX := 60 } with
        writeX := { initState stdInit with writeX := 60 }.pagePaddingX
        writeY := { initState stdInit with writeX := 60 }.writeY
          + { initState stdInit with writeX := 60 }.lastLineHeight } :=
  (addSpace_spec 5 { initState stdInit with writeX := 60 }).2.2
    (by norm_num [initState, stdInit])

/-- C7 (amended): with `height = 'auto'`, `addImage` computes the rendered
height as `width · h0 / w0`, renders the image centred at
`(pageWidth − width) / 2`, resets writeX to the left margin and advances
writeY by exactly the rendered height; the accepted `top`/`bottom` options
are ignored — they never affect the result. -/
theorem addImage_spec (props : ImgProps) (opts : ImageOptions) (s : PdfState)
    (hauto : opts.height = HeightOpt.auto) :
    imageHeight props opts = opts.width * props.height / props.width ∧
    (addImage props opts s).1 =
      { checkWriteY (imageHeight props opts)
          { lineBreakIfNeeded s with
            writeX := (s.pageWidth - opts.width) / 2 } with
        events := (checkWriteY (imageHeight props opts)
          { lineBreakIfNeeded s with
            writeX := (s.pageWidth - opts.width) / 2 }).events ++
          [RenderEvent.imageAt "PNG" ((s.pageWidth - opts.width) / 2)
            (checkWriteY (imageHeight props opts)
              { lineBreakIfNeeded s with
                writeX := (s.pageWidth - opts.width) / 2 }).writeY
            opts.width (imageHeight props opts)]
        writeX := s.pagePaddingX
        writeY := (checkWriteY (imageHeight props opts)
          { lineBreakIfNeeded s with
            writeX := (s.pageWidth - opts.width) / 2 }).writeY
          + imageHeight props opts } ∧
    ((addImage props opts s).1).writeX = s.pagePaddingX ∧
    (∀ a b : ℚ, addImage props { opts with top := a, bottom := b } s
      = addImage props opts s) := by
  refine ⟨?_, ?_, addImage_writeX props opts s, fun a b => rfl⟩
  · unfold imageHeight
    rw [hauto]
  · simp only [addImage]
    rw [show (lineBreakIfNeeded s).pageWidth = s.pageWidth from
      lineBreakIfNeeded_pageWidth s]
    rw [checkWriteY_writeX, checkWriteY_pagePaddingX]
    rw [show ({ lineBreakIfNeeded s with
        writeX := (s.pageWidth - opts.width) / 2 } : PdfState).pagePaddingX
      = s.pagePaddingX from lineBreakIfNeeded_pagePaddingX s]

/-- C7 witness: aspect ratio 2:1 at width 190 gives height 95. -/
theorem addImage_spec_witness :
    imageHeight ⟨100, 50⟩ ⟨4, 4, 190, HeightOpt.auto, "PNG"⟩ =
      (190 : ℚ) * 50 / 100 :=
  (addImage_spec ⟨100, 50⟩ ⟨4, 4, 190, HeightOpt.auto, "PNG"⟩
    (initState stdInit) rfl).1

/-- C7 counterexample: for a 2:1 image at width 190 from the initial A4
state with `top = 4` and `bottom = 4` specified, writeY advances from 10
by exactly the rendered height 95 to 105 — not by 95 + top + bottom to
113 as the claim states. -/
theorem addImage_margins_cex :
    ((addImage ⟨100, 50⟩ ⟨4, 4, 190, HeightOpt.auto, "PNG"⟩
        (initState stdInit)).1).writeY = 105 ∧
    ¬(((addImage ⟨100, 50⟩ ⟨4, 4, 190, HeightOpt.auto, "PNG"⟩
        (initState stdInit)).1).writeY = 113) := by
  norm_num [addImage, imageHeight, lineBreakIfNeeded, checkWriteY,
    initState, stdInit]


/-- C3: for inline-mode `addText` (article = false), the final step adds
`options.right` to writeX and wraps to a new line (writeX back to the
margin, writeY advanced by lineHeight) exactly when the resulting writeX
exceeds `clientWidth + pageIndex` — the page index itself is part of the
wrap threshold. -/
theorem addText_inline_spec (m : String → ℚ) (sp : String → ℚ → List String)
    (text : String) (opts : TextOptions) (s : PdfState)
    (hart : opts.article = false) :
    (addText m sp text opts s).1 =
      { endAdvance false opts.right (getLineHeight opts.fontSize)
          (addTextCore m sp text opts s) with
        lastLineHeight := getLineHeight opts.fontSize } ∧
    ∀ (u : PdfState) (r lh : ℚ),
      (clientWidth u + (u.pageIndex : ℚ) < u.writeX + r →
        endAdvance false r lh u =
          { u with writeX := u.pagePaddingX, writeY := u.writeY + lh }) ∧
      (u.writeX + r ≤ clientWidth u + (u.pageIndex : ℚ) →
        endAdvance false r lh u = { u with writeX := u.writeX + r }) := by
  constructor
  · rw [addText_eq, hart]
  · intro u r lh
    exact ⟨fun hgt => endAdvance_false_pos hgt, fun hle => endAdvance_false_neg hle⟩

/-- C3 witness: the decomposition applied at a concrete inline call. -/
theorem addText_inline_spec_witness :
    (addText lenMeasure splitAll "ab" ⟨16, 0, 0, false⟩ (initState stdInit)).1 =
      { endAdvance false (0 : ℚ) (getLineHeight 16)
          (addTextCore lenMeasure splitAll "ab" ⟨16, 0, 0, false⟩
            (initState stdInit)) with
        lastLineHeight := getLineHeight 16 } :=
  (addText_inline_spec lenMeasure splitAll "ab" ⟨16, 0, 0, false⟩
    (initState stdInit) rfl).1

/-- C2: inline `addText` computes the remaining width
`clientWidth − writeX − left − pagePaddingX`; its first-line fragment is
the longest prefix of the input whose measured width fits (character by
character, for a prefix-monotone measure with zero empty width and a
nonnegative remaining width); it paginates for one lineHeight and renders
the fragment at `(writeX, writeY + fontSize·0.4)` right after the
pagination guard; the first-line step advances writeX by exactly the
fragment's measured width; and for the empty string the fragment is empty
while the checkWriteY/render call still happens. -/
theorem addText_firstLine_spec (m : String → ℚ) (sp : String → ℚ → List String)
    (text : String) (opts : TextOptions) (s : PdfState)
    (hmono : ∀ (l : List Char) (c : Char), m ⟨l⟩ ≤ m ⟨l ++ [c]⟩)
    (hempty : m ⟨[]⟩ = 0)
    (hart : opts.article = false)
    (hW : 0 ≤ remainWidthOf opts s) :
    (∀ n, n ≤ text.data.length →
      (m ⟨text.data.take n⟩ ≤ remainWidthOf opts s ↔
        n ≤ (firstLineOf m (remainWidthOf opts s) text).1.data.length)) ∧
    (firstLineOf m (remainWidthOf opts s) text).2 =
      m (firstLineOf m (remainWidthOf opts s) text).1 ∧
    (∀ u : PdfState,
      (writeFirstLine (firstLineOf m (remainWidthOf opts s) text).1
        (firstLineOf m (remainWidthOf opts s) text).2 opts.fontSize
        (getLineHeight opts.fontSize) u).writeX =
      u.writeX + m (firstLineOf m (remainWidthOf opts s) text).1) ∧
    (∃ tail, ((addText m sp text opts s).1).events =
      (checkWriteY (getLineHeight opts.fontSize) s).events ++
      RenderEvent.textAt (firstLineOf m (remainWidthOf opts s) text).1
        (checkWriteY (getLineHeight opts.fontSize) s).writeX
        (getTextWriteY (checkWriteY (getLineHeight opts.fontSize) s) opts.fontSize)
      :: tail) ∧
    ((addText m sp "" opts s).1).events =
      (checkWriteY (getLineHeight opts.fontSize) s).events ++
      [RenderEvent.textAt ""
        (checkWriteY (getLineHeight opts.fontSize) s).writeX
        (getTextWriteY (checkWriteY (getLineHeight opts.fontSize) s) opts.fontSize)] := by
  obtain ⟨hsnd, hiff⟩ := firstLineOf_spec m (remainWidthOf opts s) text hmono hempty hW
  refine ⟨hiff, hsnd, ?_, ?_, ?_⟩
  · intro u
    rw [writeFirstLine_writeX, hsnd]
  · have hev : ((addText m sp text opts s).1).events
        = (addTextCore m sp text opts s).events := by
      rw [addText_eq]
      exact endAdvance_events _ _ _ _
    rw [hev]
    simp only [addTextCore, hart, Bool.false_eq_true, if_false]
    split
    · obtain ⟨t, ht⟩ := writeRestLines_events m opts.fontSize
        (getLineHeight opts.fontSize)
        (sp ⟨text.data.drop
            (firstLineOf m (remainWidthOf opts s) text).1.data.length⟩
          (clientWidth (writeFirstLine
            (firstLineOf m (remainWidthOf opts s) text).1
            (firstLineOf m (remainWidthOf opts s) text).2 opts.fontSize
            (getLineHeight opts.fontSize) s)))
        (writeFirstLine (firstLineOf m (remainWidthOf opts s) text).1
          (firstLineOf m (remainWidthOf opts s) text).2 opts.fontSize
          (getLineHeight opts.fontSize) s)
      refine ⟨t, ?_⟩
      rw [ht, writeFirstLine_events]
      simp
    · exact ⟨[], by rw [writeFirstLine_events]⟩
  · have hev0 : ((addText m sp "" opts s).1).events
        = (addTextCore m sp "" opts s).events := by
      rw [addText_eq]
      exact endAdvance_events _ _ _ _
    rw [hev0]
    simp only [addTextCore, hart, Bool.false_eq_true, if_false]
    rw [show firstLineOf m (remainWidthOf opts s) "" = ("", 0) from rfl]
    norm_num
    exact writeFirstLine_events _ _ _ _ _

/-- C2 witness: the fragment/width relation applied with the unit-width
measure on `"ab"` at the initial state. -/
theorem addText_firstLine_spec_witness :
    (firstLineOf lenMeasure
        (remainWidthOf ⟨16, 0, 0, false⟩ (initState stdInit)) "ab").2 =
      lenMeasure (firstLineOf lenMeasure
        (remainWidthOf ⟨16, 0, 0, false⟩ (initState stdInit)) "ab").1 :=
  (addText_firstLine_spec lenMeasure splitAll "ab" ⟨16, 0, 0, false⟩
    (initState stdInit) lenMeasure_mono lenMeasure_empty rfl
    (by norm_num [remainWidthOf, clientWidth, initState, stdInit])).2.1


end EasyPdf
